import Mathlib

/-!
Verification of `benchmark_hybrid_parallelism.py`, a concurrency-strategy
benchmark harness.  The Python source is shallowly embedded below: pure
functions become Lean functions; wall-clock observations (`time.perf_counter`
differences) become explicit rational-valued inputs; the external hashing
primitives (`xxh64`, `batch_xxh64`, `xxhash.xxh64_digest`) and the file
contents become oracle function parameters; thread-pool execution is modelled
by an explicit completion-order parameter together with the index-ordered
result collection that `ThreadPoolExecutor.map` performs.
-/

/-- One entry of the corpus listing: a file path together with its
`stat().st_size`, as produced by the walk in `get_files` (source lines 37-45). -/
structure FileEntry where
  path : String
  size : Nat
deriving Repr, DecidableEq

/-- Embedding of `get_files` (source lines 35-47) applied to the already
enumerated walk output: `files.sort(key=lambda x: x[1])` is a stable sort by
size ascending, and `files[:max_files]` truncates.  Python's `list.sort` is a
stable comparison sort; `List.insertionSort` is the stable sort of the
library. -/
def get_files (entries : List FileEntry) (max_files : Nat) : List FileEntry :=
  (entries.insertionSort (fun a b => a.size ≤ b.size)).take max_files

instance : IsTotal FileEntry (fun a b => a.size ≤ b.size) :=
  ⟨fun a b => Nat.le_total a.size b.size⟩

instance : IsTrans FileEntry (fun a b => a.size ≤ b.size) :=
  ⟨fun _ _ _ h h' => Nat.le_trans h h'⟩

/-- C5: the sampled corpus is sorted ascending by file size and truncated to at
most `max_files` entries; on the concrete directory {10, 1000, 100} with
`max_files = 10` the corpus comes out ordered 10, 100, 1000. -/
theorem get_files_sorted_and_truncated :
    (∀ (entries : List FileEntry) (m : Nat),
      List.Sorted (fun a b => a.size ≤ b.size) (get_files entries m) ∧
      (get_files entries m).length ≤ m) ∧
    get_files [⟨"a", 10⟩, ⟨"b", 1000⟩, ⟨"c", 100⟩] 10 =
      [⟨"a", 10⟩, ⟨"c", 100⟩, ⟨"b", 1000⟩] := by
  refine ⟨fun entries m => ⟨?_, ?_⟩, by decide⟩
  · exact (List.sorted_insertionSort _ entries).sublist (List.take_sublist _ _)
  · simp [get_files]

/-- C9: corpus sampling is deterministic — two invocations of the sampler over
the same directory listing (same files, same sizes, same enumeration) produce
identical ordered sequences. -/
theorem get_files_deterministic (e₁ e₂ : List FileEntry) (m : Nat)
    (h : e₁ = e₂) : get_files e₁ m = get_files e₂ m := by
  rw [h]

/-- Witness for C9 at a concrete listing. -/
theorem get_files_deterministic_witness :
    get_files [⟨"x", 7⟩, ⟨"y", 3⟩] 5 = get_files [⟨"x", 7⟩, ⟨"y", 3⟩] 5 :=
  get_files_deterministic [⟨"x", 7⟩, ⟨"y", 3⟩] [⟨"x", 7⟩, ⟨"y", 3⟩] 5 rfl

/-!
Model of `ThreadPoolExecutor.map(worker, inputs)` (source lines 73-74, 119-120,
153-154).  The pool runs one task per input; tasks may *complete* in any order
(`order` lists the indices in completion order), and each completion stores its
result under the task's input index.  `executor.map` then yields the stored
results in input-index order.  `executorMap` is the whole round trip; the
theorem `executorMap_eq_map` shows the collected output is the plain in-order
map whenever every task completes exactly once, i.e. `order` is a
permutation of the input indices.
-/

/-- The multiset of finished tasks, in completion order: completing task `i`
records the pair `(i, f inputs[i])`; an out-of-range index completes nothing. -/
def runCompletions (f : α → β) (xs : List α) (order : List Nat) : List (Nat × β) :=
  order.filterMap (fun i => (xs.get? i).map (fun x => (i, f x)))

/-- Collection phase of `executor.map`: for each input index, look up the
completed result stored under that index. -/
def collectInOrder (n : Nat) (done : List (Nat × β)) : List (Option β) :=
  (List.range n).map (fun i => (done.find? (fun p => p.1 == i)).map Prod.snd)

/-- `executor.map` end to end: run all tasks (in completion order `order`),
then yield results in input order. -/
def executorMap (f : α → β) (xs : List α) (order : List Nat) : List β :=
  (collectInOrder xs.length (runCompletions f xs order)).reduceOption

theorem runCompletions_cons_none (f : α → β) (xs : List α) (j : Nat)
    (rest : List Nat) (h : xs.get? j = none) :
    runCompletions f xs (j :: rest) = runCompletions f xs rest := by
  rw [List.get?_eq_getElem?] at h
  simp [runCompletions, List.filterMap_cons, h]

theorem runCompletions_cons_some (f : α → β) (xs : List α) (j : Nat)
    (rest : List Nat) (x : α) (h : xs.get? j = some x) :
    runCompletions f xs (j :: rest) = (j, f x) :: runCompletions f xs rest := by
  rw [List.get?_eq_getElem?] at h
  simp [runCompletions, List.filterMap_cons, h]

theorem find?_runCompletions (f : α → β) (xs : List α) (order : List Nat)
    (i : Nat) (hi : i < xs.length) (hmem : i ∈ order) :
    (runCompletions f xs order).find? (fun p => p.1 == i) =
      some (i, f (xs.get ⟨i, hi⟩)) := by
  induction order with
  | nil => cases hmem
  | cons j rest ih =>
    by_cases hij : j = i
    · subst hij
      rw [runCompletions_cons_some f xs j rest _ (List.get?_eq_get hi)]
      rw [List.find?_cons_of_pos _ (by simp)]
    · have hmem' : i ∈ rest := by
        rcases List.mem_cons.mp hmem with h | h
        · exact absurd h.symm hij
        · exact h
      cases hget : xs.get? j with
      | none =>
        rw [runCompletions_cons_none f xs j rest hget]
        exact ih hmem'
      | some x =>
        rw [runCompletions_cons_some f xs j rest x hget]
        rw [List.find?_cons_of_neg _ (by simp [hij])]
        exact ih hmem'

theorem reduceOption_map_some (l : List α) : (l.map some).reduceOption = l := by
  induction l with
  | nil => rfl
  | cons a t ih => simp [List.reduceOption_cons_of_some, ih]

/-- Output order equals input order, whatever the completion order: if every
task index completes (a permutation of the input indices), the pool collection
is exactly the in-order map. -/
theorem executorMap_eq_map (f : α → β) (xs : List α) (order : List Nat)
    (h : order.Perm (List.range xs.length)) :
    executorMap f xs order = xs.map f := by
  have key : collectInOrder xs.length (runCompletions f xs order) =
      (xs.map f).map some := by
    apply List.ext_getElem
    · simp [collectInOrder]
    · intro i h1 h2
      have hi : i < xs.length := by simpa [collectInOrder] using h1
      have hmem : i ∈ order := h.mem_iff.mpr (List.mem_range.mpr hi)
      simp only [collectInOrder, List.getElem_map, List.getElem_range]
      rw [find?_runCompletions f xs order i hi hmem]
      simp [List.get_eq_getElem]
  rw [executorMap, key, reduceOption_map_some]

/-!
Embeddings of the four strategy functions (source lines 59-157) and of the
relevant parts of `main` (source lines 160-253).  External observations are
oracle parameters: `payload path` is the byte string `read_file(path)` returns
(`read_file` maps any failure to `b''`, so an unreadable file is an empty
payload); `lat i` is the wall-clock latency the `i`-th worker call observes;
`read_time`, `process_time` and `total_time` are the `time.perf_counter`
differences measured around the corresponding phases; `bx` is the external
`batch_xxh64` primitive, one `uint64` digest per non-empty input.  Durations
are rationals (exact arithmetic on the measured values is not at issue in any
claim; only which expressions the program builds from them).
-/

/-- One task of the per-item dispatch strategies (source lines 64-70 and
144-150), identified by its submission index `i`: read the file, return a zero
latency if the payload is empty (the hash call is skipped), otherwise hash and
return the measured latency `lat i`. -/
def perItemWorker (payload : String → List Nat) (lat : Nat → ℚ)
    (files : List FileEntry) (i : Nat) : ℚ :=
  match files.get? i with
  | none => 0
  | some f => if (payload f.path).isEmpty then 0 else lat i

/-- Embedding of `benchmark_python_threading_rust` (source lines 59-77):
guarded on `HAS_RUST`; dispatches one worker per file over the thread pool and
collects the latencies in input order; returns the wall-clock span of the
whole dispatch together with the latency list. -/
def benchmark_python_threading_rust (hasRust : Bool)
    (payload : String → List Nat) (lat : Nat → ℚ) (order : List Nat)
    (total_time : ℚ) (files : List FileEntry) : ℚ × List ℚ :=
  if !hasRust then (0, [])
  else (total_time, executorMap (perItemWorker payload lat files)
    (List.range files.length) order)

/-- Embedding of `benchmark_c_threading` (source lines 139-157): identical to
the Rust per-item strategy but guarded on `HAS_XXHASH` and calling the C
implementation (a different latency oracle). -/
def benchmark_c_threading (hasXXHash : Bool)
    (payload : String → List Nat) (lat : Nat → ℚ) (order : List Nat)
    (total_time : ℚ) (files : List FileEntry) : ℚ × List ℚ :=
  if !hasXXHash then (0, [])
  else (total_time, executorMap (perItemWorker payload lat files)
    (List.range files.length) order)

/-- The sequential read loop of `benchmark_rust_parallel_batch` (source lines
87-91): append each file's payload, skipping empty ones. -/
def seq_read (payload : String → List Nat) (files : List FileEntry) :
    List (List Nat) :=
  files.foldl
    (fun acc f =>
      let d := payload f.path
      if !d.isEmpty then acc ++ [d] else acc) []

/-- The synthetic uniform latency list of the batch strategies (source lines
100 and 131): `[process_time * 1e6 / len(results)] * len(results)` when
`results` is non-empty, `[]` otherwise. -/
def batch_latencies (process_time : ℚ) (results : List Nat) : List ℚ :=
  if !results.isEmpty then
    List.replicate results.length (process_time * 1000000 / (results.length : ℚ))
  else []

/-- Embedding of `benchmark_rust_parallel_batch` (source lines 80-105): read
all files sequentially, call `batch_xxh64` once, compute
`total_time = read_time + process_time`, build the synthetic latencies, print
the two phase times — and return `process_time` (not `total_time`) as the
strategy's time. -/
def benchmark_rust_parallel_batch (hasRust : Bool)
    (payload : String → List Nat) (bx : List (List Nat) → List Nat)
    (read_time process_time : ℚ) (files : List FileEntry) : ℚ × List ℚ :=
  if !hasRust then (0, [])
  else
    let data_list := seq_read payload files
    let results := bx data_list
    let total_time := read_time + process_time
    let latencies := batch_latencies process_time results
    (process_time, latencies)

/-- The parallel read phase of the hybrid strategy (source lines 116-121):
read every file through the thread pool (results collected in input order),
then filter out empty payloads. -/
def parallel_read (payload : String → List Nat) (files : List FileEntry)
    (order : List Nat) : List (List Nat) :=
  (executorMap (fun f => payload f.path) files order).filter
    (fun d => !d.isEmpty)

/-- Embedding of `benchmark_rust_parallel_batch_with_reading` (source lines
108-136): parallel read, one `batch_xxh64` call, synthetic latencies, and the
return value is `process_time` alone ("Return just processing for fair
comparison"). -/
def benchmark_rust_parallel_batch_with_reading (hasRust : Bool)
    (payload : String → List Nat) (bx : List (List Nat) → List Nat)
    (order : List Nat) (read_time process_time : ℚ)
    (files : List FileEntry) : ℚ × List ℚ :=
  if !hasRust then (0, [])
  else
    let data_list := parallel_read payload files order
    let results := bx data_list
    let total_time := read_time + process_time
    let latencies := batch_latencies process_time results
    (process_time, latencies)

/-- Python division: raises `ZeroDivisionError` (modelled as `none`) when the
divisor is zero. -/
def pyDiv (a b : ℚ) : Option ℚ := if b = 0 then none else some (a / b)

/-- The throughput expression printed by `main` for every strategy (source
lines 205, 213, 221, 229, 237-240): `total_size / strategy_time / 1e6`.  A
zero strategy time makes the first division raise. -/
def throughput_report (total_size strategy_time : ℚ) : Option ℚ :=
  (pyDiv total_size strategy_time).bind (fun x => pyDiv x 1000000)

/-- Control flow of `main` up to the strategy runs (source lines 160-193),
as the exit code it terminates with before any benchmark executes: `some c`
means the process stops with exit code `c`, `none` means it goes on to run all
four strategies and print the report.  The third branch is the average-size
line `total_size / len(files)` (source line 176), which raises an uncaught
`ZeroDivisionError` on an empty corpus — a Python process dying on an uncaught
exception exits with code 1. -/
def main_gate (hasArg dirExists : Bool) (files : List FileEntry)
    (hasRust hasXXHash : Bool) : Option Nat :=
  if !hasArg then some 1
  else if !dirExists then some 1
  else if files.isEmpty then some 1
  else if !hasRust || !hasXXHash then some 1
  else none

/-!
Event-trace model for the sequencing claim.  A run is abstracted to the
sequence of its file-read operations and hashing-primitive calls.  For the
per-item strategies the trace below is the serialization of the pool schedule
in which each submitted task runs to completion in submission order — a legal
schedule of `ThreadPoolExecutor` (it is the only schedule when a task finishes
before the next is picked up).  For the batch strategies the read loop (or the
joined parallel read) precedes the single `batch_xxh64` call, whatever the
completion order of the reads.
-/

/-- An observable operation of a strategy run: reading the file of corpus item
`i`, or a call into the hashing primitive (tagged by item for the per-item
strategies, tag 0 for the single batch call). -/
inductive Event where
  | read (i : Nat)
  | hash (i : Nat)
deriving Repr, DecidableEq

def isRead : Event → Bool
  | .read _ => true
  | .hash _ => false

/-- The operations of one per-item worker (source lines 64-70, 144-150): read
its file, then hash unless the payload is empty. -/
def workerEvents (payload : String → List Nat) (files : List FileEntry)
    (i : Nat) : List Event :=
  match files.get? i with
  | none => []
  | some f =>
    if (payload f.path).isEmpty then [Event.read i]
    else [Event.read i, Event.hash i]

/-- Trace of a per-item dispatch run under the submission-order serialization
of the pool. -/
def per_item_trace (payload : String → List Nat) (files : List FileEntry) :
    List Event :=
  ((List.range files.length).map (workerEvents payload files)).flatten

/-- Trace of `benchmark_rust_parallel_batch` (source lines 85-97): the
sequential read loop followed by the single batch hash call. -/
def batch_seq_trace (files : List FileEntry) : List Event :=
  ((List.range files.length).map Event.read) ++ [Event.hash 0]

/-- Trace of `benchmark_rust_parallel_batch_with_reading` (source lines
113-127): the pool reads complete in order `order` (joined by the `with`
block), then the single batch hash call runs. -/
def batch_hybrid_trace (files : List FileEntry) (order : List Nat) :
    List Event :=
  (order.filterMap
    (fun i => if i < files.length then some (Event.read i) else none)) ++
  [Event.hash 0]

/-- Read-before-compute check on a trace: once a hash call has occurred, no
read may follow. -/
def noReadAfterHash : List Event → Bool
  | [] => true
  | Event.read _ :: rest => noReadAfterHash rest
  | Event.hash _ :: rest => rest.all (fun e => !(isRead e))

theorem noReadAfterHash_reads_append_hash (l : List Event) (k : Nat)
    (h : ∀ e ∈ l, isRead e = true) :
    noReadAfterHash (l ++ [Event.hash k]) = true := by
  induction l with
  | nil => rfl
  | cons a t ih =>
    cases a with
    | read i =>
      simpa [noReadAfterHash] using ih (fun e he => h e (List.mem_cons_of_mem _ he))
    | hash i =>
      have := h (Event.hash i) (List.mem_cons_self _ _)
      simp [isRead] at this

/-- C1 counterexample: with `read_time = 1` and `process_time = 2`, the batch
strategy's returned time — which `main` prints as "Total time" — is 2, not
`io_time + compute_time = 3`. -/
theorem batch_total_time_counterexample :
    (benchmark_rust_parallel_batch true (fun _ => [1])
      (fun l => l.map (fun _ => 0)) 1 2 [⟨"a", 1⟩]).1 ≠ 1 + 2 := by
  norm_num [benchmark_rust_parallel_batch]

/-- C1 (amended): both batch-dispatch strategies compute
`total_time = read_time + process_time` internally and print the two phases,
but the value they return — the one `main` reports as the strategy's total
time — is the compute (processing) time alone. -/
theorem batch_strategies_return_compute_time
    (payload : String → List Nat) (bx : List (List Nat) → List Nat)
    (order : List Nat) (read_time process_time : ℚ)
    (files : List FileEntry) :
    (benchmark_rust_parallel_batch true payload bx
      read_time process_time files).1 = process_time ∧
    (benchmark_rust_parallel_batch_with_reading true payload bx order
      read_time process_time files).1 = process_time :=
  ⟨rfl, rfl⟩

/-- C2 counterexample: with the primary hashing primitive absent and the
alternate implementation present (and a non-empty corpus), `main` exits with
code 1 before running any strategy — the comparison is aborted, Strategy D
never reports. -/
theorem main_aborts_without_primary_primitive :
    main_gate true true [⟨"a", 1⟩] false true = some 1 := by
  decide

/-- C2 (amended): each strategy function does return a zero-valued result
`(0, [])` when its required primitive is unavailable, but `main` requires both
libraries and exits 1 if either is missing, so a missing primitive aborts the
whole comparison instead of being reported as "unavailable" alongside the
other strategies' real numbers. -/
theorem unavailable_primitive_zero_result_but_main_aborts :
    (∀ (payload : String → List Nat) (lat : Nat → ℚ) (order : List Nat)
        (t : ℚ) (files : List FileEntry),
      benchmark_python_threading_rust false payload lat order t files = (0, [])) ∧
    (∀ (payload : String → List Nat) (lat : Nat → ℚ) (order : List Nat)
        (t : ℚ) (files : List FileEntry),
      benchmark_c_threading false payload lat order t files = (0, [])) ∧
    (∀ (payload : String → List Nat) (bx : List (List Nat) → List Nat)
        (rt pt : ℚ) (files : List FileEntry),
      benchmark_rust_parallel_batch false payload bx rt pt files = (0, [])) ∧
    (∀ (payload : String → List Nat) (bx : List (List Nat) → List Nat)
        (order : List Nat) (rt pt : ℚ) (files : List FileEntry),
      benchmark_rust_parallel_batch_with_reading false payload bx order rt pt
        files = (0, [])) ∧
    (∀ files : List FileEntry,
      main_gate true true files false true = some 1 ∧
      main_gate true true files true false = some 1 ∧
      main_gate true true files false false = some 1) := by
  refine ⟨fun _ _ _ _ _ => rfl, fun _ _ _ _ _ => rfl, fun _ _ _ _ _ => rfl,
    fun _ _ _ _ _ _ => rfl, fun files => ?_⟩
  cases hfe : files.isEmpty <;> simp [main_gate, hfe]

/-- C3 counterexample: a zero strategy time makes the throughput expression
raise `ZeroDivisionError` (modelled `none`) instead of printing "undefined",
and an empty corpus makes `main` die with exit code 1 at the average-size
line, not exit 0. -/
theorem zero_total_time_raises_counterexample :
    throughput_report 100 0 = none ∧
    main_gate true true [] true true = some 1 := by
  exact ⟨by simp [throughput_report, pyDiv], rfl⟩

/-- C3 (amended): the throughput division carries no zero guard — a zero
strategy time raises `ZeroDivisionError` (no throughput is reported and the
process crashes); with 0 readable files `main` already dies at the
average-file-size division and exits 1; when the time is non-zero the
throughput is the plain quotient `total_size / time / 1e6`. -/
theorem throughput_division_unguarded :
    (∀ total_size : ℚ, throughput_report total_size 0 = none) ∧
    (∀ hasRust hasXXHash : Bool,
      main_gate true true [] hasRust hasXXHash = some 1) ∧
    (∀ total_size t : ℚ, t ≠ 0 →
      throughput_report total_size t = some (total_size / t / 1000000)) := by
  refine ⟨fun s => ?_, fun hr hx => rfl, fun s t ht => ?_⟩
  · simp [throughput_report, pyDiv]
  · simp only [throughput_report, pyDiv, if_neg ht]
    norm_num

/-- Witness for C3's amended theorem at a non-zero time. -/
theorem throughput_division_unguarded_witness :
    (2 : ℚ) ≠ 0 ∧ throughput_report 100 2 = some (100 / 2 / 1000000) :=
  ⟨by norm_num, throughput_division_unguarded.2.2 100 2 (by norm_num)⟩

/-- C4 counterexample: in a per-item dispatch run over two non-empty files,
the second file's read happens after the first file's hash call even under the
submission-order schedule — the read phase does not complete before the
compute phase begins. -/
theorem per_item_interleaves_read_and_hash :
    noReadAfterHash (per_item_trace (fun _ => [1]) [⟨"a", 1⟩, ⟨"b", 2⟩])
      = false := by
  decide

/-- C4 (amended): the read phase fully precedes the compute phase in the two
batch-dispatch strategies (every read precedes the single batch hash call,
for the sequential read loop and for the pooled parallel read under any
completion order), but not in the per-item strategies, whose workers
interleave reads and hashes. -/
theorem batch_read_completes_before_compute :
    (∀ files : List FileEntry,
      noReadAfterHash (batch_seq_trace files) = true) ∧
    (∀ (files : List FileEntry) (order : List Nat),
      noReadAfterHash (batch_hybrid_trace files order) = true) := by
  constructor
  · intro files
    apply noReadAfterHash_reads_append_hash
    intro e he
    rcases List.mem_map.mp he with ⟨i, _, rfl⟩
    rfl
  · intro files order
    apply noReadAfterHash_reads_append_hash
    intro e he
    rcases List.mem_filterMap.mp he with ⟨i, _, hsome⟩
    by_cases hlt : i < files.length
    · rw [if_pos hlt] at hsome
      cases hsome
      rfl
    · rw [if_neg hlt] at hsome
      cases hsome

/-- C6: both per-item strategies produce exactly one latency entry per corpus
item, aligned to corpus order: the sequence has the corpus's length, an item
with an empty payload contributes the entry `0` (its hash call is skipped but
the entry is not omitted), and an item with a non-empty payload contributes
its measured latency. -/
theorem per_item_latency_alignment (payload : String → List Nat)
    (latR latC : Nat → ℚ) (order : List Nat) (tR tC : ℚ)
    (files : List FileEntry)
    (h : order.Perm (List.range files.length)) :
    ((benchmark_python_threading_rust true payload latR order tR files).2.length
      = files.length) ∧
    ((benchmark_c_threading true payload latC order tC files).2.length
      = files.length) ∧
    (∀ i : Fin files.length, (payload (files.get i).path).isEmpty = true →
      ((benchmark_python_threading_rust true payload latR order tR
          files).2.get? i = some 0 ∧
       (benchmark_c_threading true payload latC order tC
          files).2.get? i = some 0)) ∧
    (∀ i : Fin files.length, (payload (files.get i).path).isEmpty = false →
      (benchmark_python_threading_rust true payload latR order tR
        files).2.get? i = some (latR i)) := by
  have hperm : order.Perm (List.range (List.range files.length).length) := by
    simpa using h
  have e1 : (benchmark_python_threading_rust true payload latR order tR
      files).2 = (List.range files.length).map (perItemWorker payload latR files) :=
    executorMap_eq_map _ _ _ hperm
  have e2 : (benchmark_c_threading true payload latC order tC
      files).2 = (List.range files.length).map (perItemWorker payload latC files) :=
    executorMap_eq_map _ _ _ hperm
  have hw : ∀ (lat : Nat → ℚ) (i : Fin files.length),
      perItemWorker payload lat files i =
        if (payload (files.get i).path).isEmpty then 0 else lat i := by
    intro lat i
    simp [perItemWorker, List.get?_eq_get i.isLt]
  have hget : ∀ (lat : Nat → ℚ) (i : Fin files.length),
      ((List.range files.length).map (perItemWorker payload lat files)).get? i
        = some (perItemWorker payload lat files i) := by
    intro lat i
    rw [List.get?_eq_getElem?, List.getElem?_map, List.getElem?_range i.isLt,
      Option.map_some']
  refine ⟨by simp [e1], by simp [e2], fun i hi => ⟨?_, ?_⟩, fun i hi => ?_⟩
  · rw [e1, hget latR i, hw latR i, if_pos hi]
  · rw [e2, hget latC i, hw latC i, if_pos hi]
  · rw [e1, hget latR i, hw latR i, if_neg (by rw [hi]; simp)]

/-- Witness for C6 on a two-file corpus (first payload empty) with the pool
completing in reversed order. -/
theorem per_item_latency_alignment_witness :
    ([1, 0].Perm (List.range 2)) ∧
    ((benchmark_python_threading_rust true
        (fun s => if s = "e" then [] else [9])
        (fun i => (i : ℚ) + 10) [1, 0] 0
        [⟨"e", 0⟩, ⟨"b", 3⟩]).2.length = 2) :=
  ⟨by decide,
    (per_item_latency_alignment (fun s => if s = "e" then [] else [9])
      (fun i => (i : ℚ) + 10) (fun i => (i : ℚ) + 20) [1, 0] 0 0
      [⟨"e", 0⟩, ⟨"b", 3⟩] (by decide)).1⟩

/-- C7: the parallel read phase of the hybrid strategy returns the payloads in
corpus order whatever the pool's completion order — its output equals the
in-corpus-order payload sequence (with the empty payloads filtered, as the
read contract specifies). -/
theorem parallel_read_preserves_corpus_order (payload : String → List Nat)
    (files : List FileEntry) (order : List Nat)
    (h : order.Perm (List.range files.length)) :
    parallel_read payload files order =
      (files.map (fun f => payload f.path)).filter (fun d => !d.isEmpty) := by
  rw [parallel_read, executorMap_eq_map _ _ _ h]

/-- Witness for C7: two files read with completions in reversed order still
yield the corpus-order payload list. -/
theorem parallel_read_preserves_corpus_order_witness :
    ([1, 0].Perm (List.range 2)) ∧
    parallel_read (fun s => if s = "a" then [7] else [])
      [⟨"a", 1⟩, ⟨"b", 0⟩] [1, 0] = [[7]] := by
  refine ⟨by decide, ?_⟩
  rw [parallel_read_preserves_corpus_order (fun s => if s = "a" then [7] else [])
    [⟨"a", 1⟩, ⟨"b", 0⟩] [1, 0] (by decide)]
  decide

/-- C8: for a non-empty digest sequence, the synthetic latency list the batch
strategies report is uniform — one entry per returned digest, every entry
equal to the batch's elapsed compute time (in microseconds) divided by the
number of digests — and it is exactly what `benchmark_rust_parallel_batch`
returns as its latency component. -/
theorem batch_latencies_uniform (process_time : ℚ) (results : List Nat)
    (h : results ≠ []) :
    ((batch_latencies process_time results).length = results.length ∧
     ∀ x ∈ batch_latencies process_time results,
       x = process_time * 1000000 / (results.length : ℚ)) ∧
    (∀ (payload : String → List Nat) (bx : List (List Nat) → List Nat)
        (rt : ℚ) (files : List FileEntry),
      (benchmark_rust_parallel_batch true payload bx rt process_time files).2 =
        batch_latencies process_time (bx (seq_read payload files))) := by
  have hne : results.isEmpty = false := by
    cases results with
    | nil => exact absurd rfl h
    | cons a t => rfl
  refine ⟨⟨?_, fun x hx => ?_⟩, fun _ _ _ _ => rfl⟩
  · simp [batch_latencies, hne]
  · rw [batch_latencies, hne] at hx
    simp only [Bool.not_false, if_pos] at hx
    exact (List.eq_of_mem_replicate hx)

/-- Witness for C8 with two digests and a compute time of 2. -/
theorem batch_latencies_uniform_witness :
    ([5, 7] : List Nat) ≠ [] ∧
    ((batch_latencies 2 [5, 7]).length = 2 ∧
     ∀ x ∈ batch_latencies 2 [5, 7], x = 2 * 1000000 / ((2 : Nat) : ℚ)) :=
  ⟨by decide, (batch_latencies_uniform 2 [5, 7] (by decide)).1⟩

/-- C10: when the batch hashing call returns no digests, both batch-dispatch
strategies report an empty latency list — the `elapsed / item_count` division
is never formed on an empty digest sequence. -/
theorem batch_empty_results_empty_latencies :
    (∀ process_time : ℚ, batch_latencies process_time [] = []) ∧
    (∀ (payload : String → List Nat) (rt pt : ℚ) (files : List FileEntry),
      (benchmark_rust_parallel_batch true payload (fun _ => [])
        rt pt files).2 = []) ∧
    (∀ (payload : String → List Nat) (order : List Nat) (rt pt : ℚ)
        (files : List FileEntry),
      (benchmark_rust_parallel_batch_with_reading true payload (fun _ => [])
        order rt pt files).2 = []) :=
  ⟨fun _ => rfl, fun _ _ _ _ => rfl, fun _ _ _ _ _ => rfl⟩
